import Mathlib

/-!
A shallow embedding of `src/checker.py`, the differential oracle core of the
acto controller-testing system, together with theorems settling the frozen
claims about it.

Modelling conventions:

* Python values flowing through the oracle (inputs, cluster documents, delta
  end points, condition values) are modelled by the `JsonVal` family; Python
  `==` on them is `jsonBeq` (structural; object field order sensitive, which is
  all the development relies on).
* Python dictionaries are modelled as insertion-ordered association lists, so
  iteration order is preserved.
* The collaborators that live outside `src/` (`common.py`, `compare.py`,
  `input.py`, `parse_log`, the DeepDiff library) are out-of-scope external
  interfaces per the specification; they appear as the abstract function
  parameters collected in `Collaborators`, universally quantified in the
  theorems.  Where a claim needs their behaviour, the definition carries a
  `Modelled from the spec:` doc comment.
* Python exceptions are modelled with `Except PyErr`; the in-place mutations
  performed by the source (on `prev_snapshot.system_state` and on the stored
  condition records) are modelled by explicit state passing, so that the
  mutation becomes visible in the returned values.
-/

namespace Acto

/-- A path atom: a string key or a non-negative integer index
(Python `str` / `int`, as produced by the differ). -/
inductive Atom where
  | str (s : String)
  | idx (n : Nat)
deriving DecidableEq

/-- A field path: an ordered sequence of atoms. -/
abbrev Path := List Atom

mutual
/-- JSON-like Python values.  `notPresent` models the `NotPresent` sentinel
that the differ puts on the absent side of an insertion/deletion delta. -/
inductive JsonVal where
  | null
  | boolean (b : Bool)
  | str (s : String)
  | int (n : Int)
  | notPresent
  | arr (elems : JsonArr)
  | obj (fields : JsonObj)
/-- A JSON array (spine of a Python list). -/
inductive JsonArr where
  | nil
  | cons (head : JsonVal) (tail : JsonArr)
/-- A JSON object (insertion-ordered spine of a Python dict). -/
inductive JsonObj where
  | nil
  | cons (key : String) (val : JsonVal) (tail : JsonObj)
end

mutual
/-- Python `==` on the modelled values (structural equality; `None`, `True`,
numbers, strings, lists and dicts compare only with their own kind, and the
`NotPresent` sentinel object equals only itself). -/
def jsonBeq : JsonVal → JsonVal → Bool
  | .null, .null => true
  | .boolean a, .boolean b => a == b
  | .str a, .str b => a == b
  | .int a, .int b => a == b
  | .notPresent, .notPresent => true
  | .arr a, .arr b => jsonArrBeq a b
  | .obj a, .obj b => jsonObjBeq a b
  | _, _ => false
/-- Elementwise Python `==` on lists. -/
def jsonArrBeq : JsonArr → JsonArr → Bool
  | .nil, .nil => true
  | .cons a as, .cons b bs => jsonBeq a b && jsonArrBeq as bs
  | _, _ => false
/-- Entrywise Python `==` on dicts (field-order sensitive in this model). -/
def jsonObjBeq : JsonObj → JsonObj → Bool
  | .nil, .nil => true
  | .cons k v fs, .cons k2 v2 fs2 => k == k2 && jsonBeq v v2 && jsonObjBeq fs fs2
  | _, _ => false
end

instance : BEq JsonVal := ⟨jsonBeq⟩

/-- Lookup of a string key in a modelled dict. -/
def jsonObjFind : JsonObj → String → Option JsonVal
  | .nil, _ => none
  | .cons k v rest, key => if k == key then some v else jsonObjFind rest key

/-- Zero-based indexing into a modelled list. -/
def jsonArrGet : JsonArr → Nat → Option JsonVal
  | .nil, _ => none
  | .cons v _, 0 => some v
  | .cons _ rest, n + 1 => jsonArrGet rest n

/-- The Python exceptions the embedded code can raise or catch. -/
inductive PyErr where
  | ioError
  | keyError
  | typeError
  | indexError
deriving DecidableEq

/-- The oracle tags carried by `ErrorResult` (`common.Oracle`). -/
inductive Oracle where
  | SYSTEM_STATE
  | SYSTEM_HEALTH
  | ERROR_LOG
deriving DecidableEq

/-- One scalar change reported by the differ (`common.Diff`):
a path with the previous and current values. -/
structure Diff where
  path : Path
  prev : JsonVal
  curr : JsonVal

/-- The result variants returned by the checker
(`PassResult`, `UnchangedInputResult`, `ConnectionRefusedResult`,
`InvalidInputResult`, `ErrorResult`). -/
inductive RunResult where
  | pass
  | unchanged
  | connectionRefused
  | invalidInput (responsible_path : Option Path)
  | error (tag : Oracle) (msg : String) (input_delta : Option Diff) (match_delta : Option Diff)

/-- An input delta set: change-kind, then stringified path, then delta
(the shape produced by `postprocess_diff`). -/
abbrev InputDelta := List (String × List (String × Diff))

/-- A system delta set: resource kind, then change-kind, then stringified
path, then delta.  (In the source the second level is keyed by resource name
inside each kind's diff; only the three nested `.values()` iterations matter,
which this shape reproduces.) -/
abbrev SystemDeltaMap := List (String × List (String × List (String × Diff)))

/-- `snapshot.system_state`: resource kind to the per-kind document mapping. -/
abbrev SystemState := List (String × JsonVal)

/-- A snapshot: input document, apply-command output streams
(`cli_result['stdout']` / `cli_result['stderr']`), cluster state,
controller log lines. -/
structure Snapshot where
  input : JsonVal
  stdout : String
  stderr : String
  system_state : SystemState
  operator_log : List String

/-- A condition record stored in the dependency index:
`{field, op, value}`. -/
structure Condition where
  field : Path
  op : String
  value : JsonVal

/-- The dependency index `field_conditions_map`: stringified path to condition
list.  Keys are modelled directly as paths: `json.dumps`/`json.loads` is a
bijection on paths whose atoms are strings and numbers, so nothing is lost. -/
abbrev FieldCondMap := List (Path × List Condition)

/-- Modelled from the spec: the result of the external `parse_log`
collaborator on one log line, `{level, …}`.  `fields` are all values of the
parsed record (the scan of `parsed_log.values()` walks them). -/
structure ParsedLog where
  level : String
  fields : List JsonVal

/-- The static-analysis products consumed from `context['analysis_result']`. -/
structure AnalysisResult where
  field_conditions_map : FieldCondMap
  control_flow_fields : List Path

/-- The checker's construction context (`context` plus `trial_dir`). -/
structure CheckerContext where
  trial_dir : String
  enable_analysis : Bool
  analysis_result : Option AnalysisResult

/-- Modelled from the spec: the external collaborators of the core
(`common.py`, `compare.py`, `input.py`, `parse_log`, DeepDiff), which are
out-of-scope interfaces per §1/§6 of the specification.  Each field is an
abstract function the embedded code calls:

* `inputDiff`: `postprocess_diff(DeepDiff(prev_input, curr_input, …))`;
* `stateDiff`: `postprocess_diff(DeepDiff(prev[kind], curr[kind], exclude_regex_paths=EXCLUDE_PATH_REGEX, …))`;
* `input_compare` / `compare`: `CompareMethods.input_compare` / `.compare`;
* `invalid_input_message`: returns `(bool, responsible_path?)`;
* `parse_log`: `none` models the empty dict `{}`;
* `canonicalize`: atom canonicalization used by path matching;
* `genericFieldMatch`: whether `re.search(regex, str(atom))` succeeds for some
  regex in `GENERIC_FIELDS`;
* `excludeErrorMatch`: whether a log line matches some `EXCLUDE_ERROR_REGEX`;
* `applyOp`: `translate_op(op)(value, condition_value)`;
* `schemaDefault`: `input_model.get_schema_by_path(path).default`, `.error`
  when the lookup raises (the source catches any exception there);
* `writeOk`: whether opening and writing the per-generation delta log file
  succeeds. -/
structure Collaborators where
  inputDiff : JsonVal → JsonVal → InputDelta
  stateDiff : JsonVal → JsonVal → List (String × List (String × Diff))
  input_compare : JsonVal → JsonVal → Bool
  compare : JsonVal → JsonVal → JsonVal → JsonVal → Bool
  invalid_input_message : String → InputDelta → Bool × Option Path
  parse_log : String → Option ParsedLog
  canonicalize : Atom → Atom
  genericFieldMatch : Atom → Bool
  excludeErrorMatch : String → Bool
  applyOp : String → JsonVal → JsonVal → Bool
  schemaDefault : Path → Except Unit JsonVal
  writeOk : Bool

/-- Whether `pat` is a prefix of `s` (on character lists). -/
def strContainsAux : List Char → List Char → Bool
  | _, [] => true
  | [], _ :: _ => false
  | s@(_ :: rest), pat => (pat.isPrefixOf s) || strContainsAux rest pat

/-- Python `s.find(pat) != -1`: substring containment. -/
def strContains (s pat : String) : Bool := strContainsAux s.data pat.data

/-- Python `s.lower()` (ASCII, which covers the level names compared). -/
def strLower (s : String) : String := ⟨s.data.map Char.toLower⟩

/-- First association-list entry with the given string key. -/
def assocFind (l : List (String × α)) (k : String) : Option α :=
  (l.find? (fun e => e.1 == k)).map (·.2)

/-- Dependency-index lookup (`encoded_path in field_conditions_map` /
`field_conditions_map[encoded_path]`). -/
def lookupFcm (fcm : FieldCondMap) (k : Path) : Option (List Condition) :=
  (fcm.find? (fun e => e.1 == k)).map (·.2)

/-- Replace the condition list stored under a key (the in-place mutation of
the records obtained by reference in the source). -/
def updateFcm (fcm : FieldCondMap) (k : Path) (cs : List Condition) : FieldCondMap :=
  fcm.map (fun e => if e.1 == k then (e.1, cs) else e)

/-- One step of Python `operator.getitem`: dict lookup raises `KeyError` for a
missing or non-string key, list indexing raises `IndexError` out of range and
`TypeError` for a string subscript, and scalars are not subscriptable
(`TypeError`). -/
def getItem : JsonVal → Atom → Except PyErr JsonVal
  | .obj fields, .str k =>
    match jsonObjFind fields k with
    | some v => .ok v
    | none => .error .keyError
  | .obj _, .idx _ => .error .keyError
  | .arr xs, .idx i =>
    match jsonArrGet xs i with
    | some v => .ok v
    | none => .error .indexError
  | .arr _, .str _ => .error .typeError
  | _, _ => .error .typeError

/-- `reduce(operator.getitem, path, input)`: descend the input document along
the condition's field path. -/
def descend (v : JsonVal) : Path → Except PyErr JsonVal
  | [] => .ok v
  | a :: rest =>
    match getItem v a with
    | .ok v2 => descend v2 rest
    | .error e => .error e

/-- The in-place normalisation at the top of `check_condition`:
every `'INDEX'` atom of the condition's field path is overwritten with the
integer `0`. -/
def normalizeIndexAtoms (path : Path) : Path :=
  path.map (fun a => if a == .str "INDEX" then .idx 0 else a)

/-- `Checker.check_condition` (src/checker.py:305-327).  The returned
`Condition` is the stored record after the call: the source mutates it in
place (`path[i] = 0` writes through to `condition['field']`, and the boolean
retry overwrites `condition['value']`).  `translate_op(condition['op']) ==
operator.eq` is modelled as `condition.op == "=="` (per the spec's operator
table, only `'=='` maps to `operator.eq`).  Only `KeyError` and `TypeError`
from the descent are caught; an `IndexError` propagates. -/
def check_condition (collab : Collaborators) (input : JsonVal) (condition : Condition) :
    Except PyErr (Bool × Condition) :=
  let condition1 : Condition :=
    ⟨normalizeIndexAtoms condition.field, condition.op, condition.value⟩
  match descend input condition1.field with
  | .error e =>
    if e == .keyError || e == .typeError then
      .ok (condition1.op == "==" && jsonBeq condition1.value .null, condition1)
    else .error e
  | .ok value =>
    if collab.applyOp condition1.op value condition1.value then
      .ok (true, condition1)
    else
      match value with
      | .boolean _ =>
        let condition2 : Condition :=
          ⟨condition1.field, condition1.op, .boolean (jsonBeq condition1.value (.str "true"))⟩
        .ok (collab.applyOp condition2.op value condition2.value, condition2)
      | _ => .ok (false, condition1)

/-- The `for condition in conditions` loops of `should_skip_input_delta`:
returns (should skip, the stored records after the loop).  Each evaluated
record is replaced by its possibly mutated version; on the first failing
condition the loop returns `true` immediately, leaving the remaining records
untouched. -/
def evalConditions (collab : Collaborators) (input : JsonVal) :
    List Condition → Except PyErr (Bool × List Condition)
  | [] => .ok (false, [])
  | c :: rest =>
    match check_condition collab input c with
    | .error e => .error e
    | .ok (ok, c2) =>
      if ok then
        match evalConditions collab input rest with
        | .error e => .error e
        | .ok (skip, rest2) => .ok (skip, c2 :: rest2)
      else .ok (true, c2 :: rest)

/-- Whether `pre` equals the leading atoms of `full` (the elementwise loop
`for i in range(len(p)): if p[i] != path[i]`). -/
def atomsLeadEq : Path → Path → Bool
  | [], _ => true
  | _ :: _, [] => false
  | a :: as, b :: bs => a == b && atomsLeadEq as bs

/-- `Checker.find_nearest_parent` (src/checker.py:285-303), faithfully
including its dead local: `length` is initialised to `0`, compared in
`len(p) > length`, and never reassigned, so the fold state keeps it at `0`
throughout and the *last* nonempty key that is a leading-atom prefix of
`path` wins.  Keys are modelled as paths (`json.loads` of the encoded key). -/
def find_nearest_parent (path : Path) (encoded_path_list : List Path) : Option Path :=
  (encoded_path_list.foldl
    (fun st p =>
      if p.length > path.length then st
      else if !(atomsLeadEq p path) then st
      else if p.length > st.1 then (st.1, some p)
      else st)
    ((0 : Nat), (none : Option Path))).2

/-- Modelled from the spec: `is_subfield(subpath, path)` from the repository's
`common` module (not under `src/`) — §4.3 applies the dependency to "every
path D in the current DependencyIndex whose prefix equals the object's path",
so it holds iff `path` equals the leading atoms of `subpath` (the path itself
included). -/
def is_subfield (subpath : Path) (path : Path) : Bool :=
  atomsLeadEq path subpath

/-- The condition record appended by `encode_dependency`:
`{'field': dependee, 'op': '==', 'value': 'true'}`. -/
def enabledCondition (dependee : Path) : Condition :=
  ⟨dependee, "==", .str "true"⟩

/-- `Checker.encode_dependency` (src/checker.py:46-66): ensure the depender's
path is a key, then append the enabled-condition to every key currently in
the map that is a subfield of the depender. -/
def encode_dependency (fcm : FieldCondMap) (depender dependee : Path) : FieldCondMap :=
  let fcm1 := if (lookupFcm fcm depender).isNone then fcm ++ [(depender, [])] else fcm
  fcm1.map (fun e =>
    if is_subfield e.1 depender then (e.1, e.2 ++ [enabledCondition dependee]) else e)

/-- The input schema tree as the checker walks it: object schemas expose
their path and properties, array schemas their item schema. -/
inductive InputSchema where
  | objectS (path : Path) (props : List (String × InputSchema))
  | arrayS (path : Path) (item : InputSchema)
  | leafS (path : Path)

mutual
/-- `Checker.helper` (src/checker.py:35-44): non-object schemas return
immediately; object schemas walk their properties. -/
def helper (fcm : FieldCondMap) : InputSchema → FieldCondMap
  | .objectS path props => helperProps fcm path props
  | .arrayS _ _ => fcm
  | .leafS _ => fcm

/-- The `for key, value in schema.get_properties().items()` loop of
`helper`: an `enabled` child encodes the dependency of the object's path on
`path + ['enabled']`; object children recurse, array children recurse into
their item schema. -/
def helperProps (fcm : FieldCondMap) (path : Path) :
    List (String × InputSchema) → FieldCondMap
  | [] => fcm
  | (key, value) :: rest =>
    let fcm1 :=
      if key == "enabled" then encode_dependency fcm path (path ++ [.str "enabled"])
      else fcm
    let fcm2 :=
      match value with
      | .objectS p2 props2 => helperProps fcm1 p2 props2
      | .arrayS _ item => helper fcm1 item
      | .leafS _ => fcm1
    helperProps fcm2 path rest
end

/-- `Checker.__init__` (src/checker.py:20-33), restricted to building
`field_conditions_map`: seed it from `analysis_result` when analysis is
enabled (a missing `analysis_result` raises `KeyError` there), then walk the
root schema. -/
def checker_init (ctx : CheckerContext) (root : InputSchema) : Except PyErr FieldCondMap :=
  if ctx.enable_analysis then
    match ctx.analysis_result with
    | some ar => .ok (helper ar.field_conditions_map root)
    | none => .error .keyError
  else .ok (helper [] root)

/-- `re.match(r"^\d$", str(atom))`: the string form of the atom is a single
decimal digit. -/
def isSingleDigitAtom : Atom → Bool
  | .idx n => n < 10
  | .str s =>
    match s.data with
    | [c] => c.isDigit
    | _ => false

/-- One gate atom against one path atom inside the control-flow loop:
accepted when the gate atom is `'INDEX'` and the path atom prints as a single
digit, or when the two atoms are equal. -/
def controlFlowAtomsMatch : Path → Path → Bool
  | [], [] => true
  | a :: as, g :: gs =>
    ((g == .str "INDEX" && isSingleDigitAtom a) || a == g) && controlFlowAtomsMatch as gs
  | _, _ => false

/-- The `for control_flow_field in control_flow_fields` loop: skip when some
gate of the same length matches atom by atom. -/
def controlFlowMatch (control_flow_fields : List Path) (path : Path) : Bool :=
  control_flow_fields.any (fun cff =>
    path.length == cff.length && controlFlowAtomsMatch path cff)

/-- The tail of `should_skip_input_delta` after the dependency checking: the
control-flow gates, consulted only when analysis is enabled and
`analysis_result` is present. -/
def controlFlowSkip (ctx : CheckerContext) (delta : Diff) (fcm : FieldCondMap) :
    Except PyErr (Bool × FieldCondMap) :=
  if !ctx.enable_analysis then .ok (false, fcm)
  else
    match ctx.analysis_result with
    | none => .ok (false, fcm)
    | some ar => .ok (controlFlowMatch ar.control_flow_fields delta.path, fcm)

/-- `Checker.should_skip_input_delta` (src/checker.py:216-283): the default
value rule (any exception from the schema lookup is caught and ignored), then
the exact dependency key, then the nearest parent key, then the control-flow
gates.  Returns (skip, the dependency index records after the call). -/
def should_skip_input_delta (ctx : CheckerContext) (collab : Collaborators)
    (snapshotInput : JsonVal) (input_delta : Diff) (fcm : FieldCondMap) :
    Except PyErr (Bool × FieldCondMap) :=
  let defaultSkip :=
    match collab.schemaDefault input_delta.path with
    | .ok default_value =>
      if jsonBeq input_delta.prev default_value &&
          (jsonBeq input_delta.curr .null || jsonBeq input_delta.curr .notPresent) then
        true
      else if jsonBeq input_delta.curr default_value &&
          (jsonBeq input_delta.prev .null || jsonBeq input_delta.prev .notPresent) then
        true
      else false
    | .error _ => false
  if defaultSkip then .ok (true, fcm)
  else
    match lookupFcm fcm input_delta.path with
    | some conditions =>
      match evalConditions collab snapshotInput conditions with
      | .error e => .error e
      | .ok (skip, conditions2) =>
        let fcm2 := updateFcm fcm input_delta.path conditions2
        if skip then .ok (true, fcm2) else controlFlowSkip ctx input_delta fcm2
    | none =>
      match find_nearest_parent input_delta.path (fcm.map (·.1)) with
      | some parent =>
        match lookupFcm fcm parent with
        | some conditions =>
          match evalConditions collab snapshotInput conditions with
          | .error e => .error e
          | .ok (skip, conditions2) =>
            let fcm2 := updateFcm fcm parent conditions2
            if skip then .ok (true, fcm2) else controlFlowSkip ctx input_delta fcm2
        | none => .error .keyError
      | none => controlFlowSkip ctx input_delta fcm

/-- The `while canonicalize(path[-position-1]) == canonicalize(delta.path[-position-1])`
loop of `_list_matched_fields`, on already-reversed paths: the number of
matching canonicalized trailing atoms, naturally capped at the shorter
length.  (On an empty path the source would raise `IndexError`; diff paths
are nonempty.) -/
def suffixOverlapAux (canon : Atom → Atom) : Path → Path → Nat
  | a :: as, b :: bs => if canon a == canon b then suffixOverlapAux canon as bs + 1 else 0
  | _, _ => 0

/-- Longest common canonicalized suffix of two paths. -/
def suffixOverlap (canon : Atom → Atom) (p q : Path) : Nat :=
  suffixOverlapAux canon p.reverse q.reverse

/-- The three nested `.values()` iterations over a system delta map, in
order: all state deltas of all change kinds of all resource kinds. -/
def flatten3 (delta_dict : SystemDeltaMap) : List Diff :=
  (delta_dict.map (fun r => (r.2.map (fun t => t.2.map (·.2))).flatten)).flatten

/-- One iteration of the `for delta in type_delta_list.values()` body of
`_list_matched_fields`, on the running `(results, max_match)` state. -/
def listMatchedStep (canon : Atom → Atom) (path : Path) (st : List Diff × Nat) (delta : Diff) :
    List Diff × Nat :=
  let position := suffixOverlap canon path delta.path
  if position == st.2 && position != 0 then (st.1 ++ [delta], st.2)
  else if position > st.2 then ([delta], position)
  else st

/-- `Checker._list_matched_fields` (src/checker.py:436-470): short-circuit on
a generic last atom, otherwise keep every state delta achieving the running
maximum suffix overlap (appending on ties, resetting on a new maximum). -/
def list_matched_fields (collab : Collaborators) (path : Path) (delta_dict : SystemDeltaMap) :
    List Diff :=
  if collab.genericFieldMatch (path.getLastD (.str "")) then []
  else ((flatten3 delta_dict).foldl (listMatchedStep collab.canonicalize path) ([], 0)).1

/-- The `for match_delta in match_deltas` loop of `check_resources`: the
first matched delta whose change `compare` rejects. -/
def firstInconsistent (collab : Collaborators) (delta : Diff) : List Diff → Option Diff
  | [] => none
  | m :: rest =>
    if !(collab.compare delta.prev delta.curr m.prev m.curr) then some m
    else firstInconsistent collab delta rest

/-- The wildcard fallback of `check_resources`: the `found` flag set by the
triple loop over the working system delta (the loop never breaks early). -/
def wildcardFound (collab : Collaborators) (delta : Diff) (working : SystemDeltaMap) : Bool :=
  working.foldl
    (fun found r =>
      r.2.foldl
        (fun found t =>
          t.2.foldl
            (fun found kv =>
              if collab.compare delta.prev delta.curr kv.2.prev kv.2.curr then true else found)
            found)
        found)
    false

/-- The `for resource in curr_system_state` loop of `get_deltas`: diff each
resource kind, inserting an empty mapping into the *previous* snapshot's
system state for kinds it lacks (the source mutates
`prev_snapshot.system_state` here).  Returns the system delta map and the
previous system state after the loop. -/
def stateDeltaLoop (collab : Collaborators) :
    SystemState → SystemState → SystemDeltaMap × SystemState
  | [], prev => ([], prev)
  | (kind, docs) :: rest, prev =>
    let prev1 := if (assocFind prev kind).isSome then prev else prev ++ [(kind, .obj .nil)]
    let d := collab.stateDiff ((assocFind prev1 kind).getD (.obj .nil)) docs
    let (ds, prevF) := stateDeltaLoop collab rest prev1
    ((kind, d) :: ds, prevF)

/-- `Checker.get_deltas` (src/checker.py:472-491): the input diff, the
per-resource system diffs, and `prev_snapshot.system_state` after the call
(the source patches missing kinds into it in place). -/
def get_deltas (collab : Collaborators) (snapshot : Snapshot) (prevInput : JsonVal)
    (prevSystemState : SystemState) : InputDelta × SystemDeltaMap × SystemState :=
  let input_delta := collab.inputDiff prevInput snapshot.input
  let (system_state_delta, prevF) := stateDeltaLoop collab snapshot.system_state prevSystemState
  (input_delta, system_state_delta, prevF)

/-- The two nested `.values()` iterations over the input delta, in order. -/
def flattenInput (input_delta : InputDelta) : List Diff :=
  (input_delta.map (fun g => g.2.map (·.2))).flatten

/-- `system_delta_without_cr.pop('custom_resource_spec')` on a (deep) copy:
`none` models the `KeyError` when the key is absent; dict keys are unique, so
removing every entry with the key is the single `pop`. -/
def popKey (m : SystemDeltaMap) (k : String) : Option SystemDeltaMap :=
  if (m.find? (fun e => e.1 == k)).isSome then some (m.filter (fun e => !(e.1 == k)))
  else none

/-- The `for delta_list in input_delta.values(): for delta in ...` loop of
`check_resources`, threading the dependency index records mutated by the
skip engine: skip input-equivalent deltas, ask the skip engine, compare the
longest-suffix matches, and fall back to the wildcard search when the match
set is empty. -/
def checkDeltas (ctx : CheckerContext) (collab : Collaborators) (snapshotInput : JsonVal)
    (working : SystemDeltaMap) :
    List Diff → FieldCondMap → Except PyErr (RunResult × FieldCondMap)
  | [], fcm => .ok (.pass, fcm)
  | delta :: rest, fcm =>
    if collab.input_compare delta.prev delta.curr then
      checkDeltas ctx collab snapshotInput working rest fcm
    else
      match should_skip_input_delta ctx collab snapshotInput delta fcm with
      | .error e => .error e
      | .ok (true, fcm2) => checkDeltas ctx collab snapshotInput working rest fcm2
      | .ok (false, fcm2) =>
        let match_deltas := list_matched_fields collab delta.path working
        match firstInconsistent collab delta match_deltas with
        | some match_delta =>
          .ok (.error .SYSTEM_STATE "Matched delta inconsistent with input delta"
                (some delta) (some match_delta), fcm2)
        | none =>
          if match_deltas.isEmpty then
            if wildcardFound collab delta working then
              checkDeltas ctx collab snapshotInput working rest fcm2
            else
              .ok (.error .SYSTEM_STATE "Found no matching fields for input"
                    (some delta) none, fcm2)
          else checkDeltas ctx collab snapshotInput working rest fcm2

/-- `Checker.check_resources` (src/checker.py:145-214): recompute the deltas,
write the delta log (the `open`/`write` has no exception handler: a failed
write raises), excise `custom_resource_spec` (a plain `pop`: `KeyError` when
absent), then run the matching loop.  Returns the verdict, the dependency
index records, the previous system state, and the list of files written. -/
def check_resources (ctx : CheckerContext) (collab : Collaborators) (snapshot : Snapshot)
    (prevInput : JsonVal) (prevSystemState : SystemState) (fcm : FieldCondMap)
    (delta_log_path : String) :
    Except PyErr (RunResult × FieldCondMap × SystemState × List String) :=
  let g := get_deltas collab snapshot prevInput prevSystemState
  if collab.writeOk then
    match popKey g.2.1 "custom_resource_spec" with
    | some system_delta_without_cr =>
      match checkDeltas ctx collab snapshot.input system_delta_without_cr
          (flattenInput g.1) fcm with
      | .error e => .error e
      | .ok (result, fcm2) => .ok (result, fcm2, g.2.2, [delta_log_path])
    | none => .error .keyError
  else .error .ioError

/-- `Checker.check_input` (src/checker.py:120-143): connection refused, then
invalid input (the collaborator's signal, or any nonempty stderr), then
unchanged, then pass. -/
def check_input (collab : Collaborators) (snapshot : Snapshot) (input_delta : InputDelta) :
    RunResult :=
  if strContains snapshot.stderr "connection refused" then .connectionRefused
  else
    let im := collab.invalid_input_message snapshot.stderr input_delta
    let is_invalid := im.1 || snapshot.stderr.length > 0
    if is_invalid then .invalidInput im.2
    else if strContains snapshot.stdout "unchanged" || strContains snapshot.stderr "unchanged" then
      .unchanged
    else .pass

/-- The `for value in list(parsed_log.values())` loop of
`check_operator_log`: the responsible path of the first non-empty string
value that `invalid_input_message` flags. -/
def firstInvalidValue (collab : Collaborators) (input_delta : InputDelta) :
    List JsonVal → Option (Option Path)
  | [] => none
  | .str s :: rest =>
    if s == "" then firstInvalidValue collab input_delta rest
    else
      match collab.invalid_input_message s input_delta with
      | (true, p) => some p
      | (false, _) => firstInvalidValue collab input_delta rest
  | _ :: rest => firstInvalidValue collab input_delta rest

/-- The `for line in log` loop of `check_operator_log`: unparsed lines and
non-warn/error/fatal levels are skipped; a flagged value returns
`InvalidInput`; the exclude-regex test then has no observable effect because
the `ErrorResult` branch is commented out in the source, so both outcomes
continue with the next line. -/
def scanLog (collab : Collaborators) (input_delta : InputDelta) : List String → RunResult
  | [] => .pass
  | line :: rest =>
    match collab.parse_log line with
    | none => scanLog collab input_delta rest
    | some parsed_log =>
      if strLower parsed_log.level != "warn" && strLower parsed_log.level != "error" &&
          strLower parsed_log.level != "fatal" then
        scanLog collab input_delta rest
      else
        match firstInvalidValue collab input_delta parsed_log.fields with
        | some p => .invalidInput p
        | none =>
          if collab.excludeErrorMatch line then scanLog collab input_delta rest
          else scanLog collab input_delta rest

/-- `Checker.check_operator_log` (src/checker.py:329-367): recompute the
deltas (this also re-runs the prev-state patching), then scan the log lines.
Returns the verdict and the previous system state after the call. -/
def check_operator_log (collab : Collaborators) (snapshot : Snapshot) (prevInput : JsonVal)
    (prevSystemState : SystemState) : RunResult × SystemState :=
  let g := get_deltas collab snapshot prevInput prevSystemState
  (scanLog collab g.1 snapshot.operator_log, g.2.2)

/-- `<trial_dir>/delta-<generation>.log`. -/
def deltaLogPath (ctx : CheckerContext) (generation : Nat) : String :=
  ctx.trial_dir ++ "/delta-" ++ generation.repr ++ ".log"

/-- Everything observable about one `check` call: the verdict, the stored
condition records of the dependency index after the call, the previous
snapshot's system state after the call, and the files written. -/
structure CheckOutcome where
  result : RunResult
  fcm : FieldCondMap
  prevSystemState : SystemState
  writes : List String

/-- `Checker.check` (src/checker.py:68-118): empty system state short-circuits
to `InvalidInput(None)`; otherwise compute the deltas, run the input oracle
(returning its verdict immediately when it is not `Pass`), then the state and
log oracles; the health check is commented out and hardcoded to `Pass`; and
combine: log `InvalidInput`, health `Error`, state `Error`, log `Error`,
otherwise `Pass`.  (The `flatten_dict` call and the delta-counting block only
feed logging and are omitted.) -/
def check (ctx : CheckerContext) (collab : Collaborators) (snapshot prev_snapshot : Snapshot)
    (fcm : FieldCondMap) (generation : Nat) : Except PyErr CheckOutcome :=
  if snapshot.system_state.isEmpty then
    .ok ⟨.invalidInput none, fcm, prev_snapshot.system_state, []⟩
  else
    let delta_log_path := deltaLogPath ctx generation
    let g := get_deltas collab snapshot prev_snapshot.input prev_snapshot.system_state
    let input_result := check_input collab snapshot g.1
    match input_result with
    | .pass =>
      match check_resources ctx collab snapshot prev_snapshot.input g.2.2 fcm delta_log_path with
      | .error e => .error e
      | .ok (state_result, fcm2, prevState2, writes) =>
        let lg := check_operator_log collab snapshot prev_snapshot.input prevState2
        let log_result := lg.1
        let health_result := RunResult.pass
        match log_result with
        | .invalidInput p => .ok ⟨.invalidInput p, fcm2, lg.2, writes⟩
        | _ =>
          match health_result with
          | .error t m d md => .ok ⟨.error t m d md, fcm2, lg.2, writes⟩
          | _ =>
            match state_result with
            | .error t m d md => .ok ⟨.error t m d md, fcm2, lg.2, writes⟩
            | _ =>
              match log_result with
              | .error t m d md => .ok ⟨.error t m d md, fcm2, lg.2, writes⟩
              | _ => .ok ⟨.pass, fcm2, lg.2, writes⟩
    | r => .ok ⟨r, fcm, g.2.2, []⟩

/-! ### Claim-side definitions

The following definitions restate, in declarative form, what the claims say
the code does; the theorems compare them with the embedded source. -/

/-- The state-oracle behaviour as claim C1 words it, per input delta in
order: a delta that is input-equivalent or that the skip engine suppresses is
passed over; otherwise, as soon as some longest-suffix match rejects
`compare`, the inconsistency error is returned with both deltas attached;
with an empty match set, the no-matching-fields error is returned exactly
when no state delta anywhere in the working system delta satisfies `compare`;
and when every delta is equivalent, skipped, or matched consistently, the
verdict is `Pass`.  (The skip engine's record mutations are threaded exactly
as the source performs them.) -/
def stateOracleClaim (ctx : CheckerContext) (collab : Collaborators) (snapshotInput : JsonVal)
    (working : SystemDeltaMap) :
    List Diff → FieldCondMap → Except PyErr (RunResult × FieldCondMap)
  | [], fcm => .ok (.pass, fcm)
  | delta :: rest, fcm =>
    if collab.input_compare delta.prev delta.curr then
      stateOracleClaim ctx collab snapshotInput working rest fcm
    else
      match should_skip_input_delta ctx collab snapshotInput delta fcm with
      | .error e => .error e
      | .ok (true, fcm2) => stateOracleClaim ctx collab snapshotInput working rest fcm2
      | .ok (false, fcm2) =>
        let match_deltas := list_matched_fields collab delta.path working
        match match_deltas.find? (fun m => !(collab.compare delta.prev delta.curr m.prev m.curr)) with
        | some m =>
          .ok (.error .SYSTEM_STATE "Matched delta inconsistent with input delta"
                (some delta) (some m), fcm2)
        | none =>
          if match_deltas.isEmpty then
            if (flatten3 working).any (fun s => collab.compare delta.prev delta.curr s.prev s.curr)
            then stateOracleClaim ctx collab snapshotInput working rest fcm2
            else .ok (.error .SYSTEM_STATE "Found no matching fields for input"
                      (some delta) none, fcm2)
          else stateOracleClaim ctx collab snapshotInput working rest fcm2

/-- The verdict combination as amended claim C2 words the post-input stage:
`InvalidInput` from the log oracle first, then an `Error` from the health
oracle, then from the state oracle, then from the log oracle, else `Pass`. -/
def combineVerdicts (health_result state_result log_result : RunResult) : RunResult :=
  match log_result with
  | .invalidInput p => .invalidInput p
  | _ =>
    match health_result with
    | .error t m d md => .error t m d md
    | _ =>
      match state_result with
      | .error t m d md => .error t m d md
      | _ =>
        match log_result with
        | .error t m d md => .error t m d md
        | _ => .pass

/-- The verdict of a `check` call, when no exception escaped it. -/
def resultOf : Except PyErr CheckOutcome → Option RunResult
  | .ok out => some out.result
  | .error _ => none

/-- Whether a `check` call returned at all (no exception escaped). -/
def checkReturned : Except PyErr CheckOutcome → Bool
  | .ok _ => true
  | .error _ => false

/-- The maximal canonicalized suffix overlap of `path` over a list of state
deltas (`0` on the empty list). -/
def maxOverlap (canon : Atom → Atom) (path : Path) (l : List Diff) : Nat :=
  l.foldl (fun m d => max m (suffixOverlap canon path d.path)) 0

/-- The entries `get_deltas` appends to the previous system state: one empty
mapping per resource kind of the current snapshot that the previous state
lacks, in order. -/
def missingKinds (prev curr : SystemState) : SystemState :=
  (curr.filter (fun kv => (assocFind prev kv.1).isNone)).map (fun kv => (kv.1, .obj .nil))

/-- The coercion the boolean retry of `check_condition` writes into the
condition record: string `'true'` becomes `True`, anything else `False`. -/
def boolCoerce (v : JsonVal) : JsonVal :=
  .boolean (jsonBeq v (.str "true"))

/-! ### Concrete instances

Concrete collaborators, snapshots and schemas used by the witnesses and
counterexamples.  They are ordinary values of the interface types above; each
theorem that uses them evaluates the embedded code on them. -/

/-- Inert collaborators: empty diffs, no invalid-input signals, no parsed log
lines, identity canonicalization, no generic fields, `compare` always
consistent, schema lookups raising, the delta-log write succeeding. -/
def baseCollab : Collaborators :=
  ⟨fun _ _ => [], fun _ _ => [], fun _ _ => false, fun _ _ _ _ => true,
   fun _ _ => (false, none), fun _ => none, id, fun _ => false, fun _ => false,
   fun _ _ _ => false, fun _ => .error (), true⟩

/-- A context with analysis disabled. -/
def plainCtx : CheckerContext := ⟨"t", false, none⟩

/-- The synthetic empty predecessor (`EmptySnapshot`): empty system state. -/
def emptyPrev : Snapshot := ⟨.obj .nil, "", "", [], []⟩

/-- Collaborators whose log parser flags the line `"E"` as an error whose
message `"bad"` the invalid-input collaborator attributes to `spec`. -/
def crCollab : Collaborators :=
  ⟨fun _ _ => [], fun _ _ => [], fun _ _ => false, fun _ _ _ _ => true,
   fun s _ => if s == "bad" then (true, some [.str "spec"]) else (false, none),
   fun line => if line == "E" then some ⟨"error", [.str "bad"]⟩ else none,
   id, fun _ => false, fun _ => false, fun _ _ _ => false, fun _ => .error (), true⟩

/-- A snapshot whose apply command hit a connection refusal while the
controller also logged an invalid-input error. -/
def crSnap : Snapshot :=
  ⟨.obj .nil, "", "connection refused", [("custom_resource_spec", .obj .nil)], ["E"]⟩

/-- The input-delta change `spec: 1 -> 2`. -/
def specDelta : Diff := ⟨[.str "spec"], .int 1, .int 2⟩

/-- Collaborators reporting the `spec` input change, a matching `pod` state
change, and nothing else. -/
def c7Collab : Collaborators :=
  ⟨fun _ _ => [("values_changed", [("k0", specDelta)])],
   fun _ c =>
     match c with
     | .obj .nil => []
     | _ => [("values_changed", [("k0", specDelta)])],
   fun _ _ => false, fun _ _ _ _ => true, fun _ _ => (false, none), fun _ => none,
   id, fun _ => false, fun _ => false, fun _ _ _ => false, fun _ => .error (), true⟩

/-- A snapshot with a `pod` kind the empty predecessor lacks. -/
def c7Snap : Snapshot :=
  ⟨.obj .nil, "", "",
   [("custom_resource_spec", .obj .nil), ("pod", .obj (.cons "spec" (.int 2) .nil))], []⟩

/-- A dependency index whose stored condition has an `'INDEX'` atom in its
field path. -/
def c7Fcm : FieldCondMap :=
  [([.str "spec"], [⟨[.str "spec", .str "INDEX"], "==", .null⟩])]

/-- `baseCollab` with the delta-log write failing. -/
def noWriteCollab : Collaborators :=
  ⟨fun _ _ => [], fun _ _ => [], fun _ _ => false, fun _ _ _ _ => true,
   fun _ _ => (false, none), fun _ => none, id, fun _ => false, fun _ => false,
   fun _ _ _ => false, fun _ => .error (), false⟩

/-- A minimal healthy snapshot: only the reserved `custom_resource_spec`
kind. -/
def csrOnlySnap : Snapshot :=
  ⟨.obj .nil, "", "", [("custom_resource_spec", .obj .nil)], []⟩

/-- A snapshot with empty system state (as after a failed state capture). -/
def emptyStateSnap : Snapshot := ⟨.obj .nil, "", "", [], ["line"]⟩

/-- The schema for the C5 counterexample: an object `a` whose properties list
its `enabled` gate *before* its child object `b`, which has its own
`enabled` gate. -/
def c5Root : InputSchema :=
  .objectS []
    [("a", .objectS [.str "a"]
      [("enabled", .leafS [.str "a", .str "enabled"]),
       ("b", .objectS [.str "a", .str "b"]
         [("enabled", .leafS [.str "a", .str "b", .str "enabled"])])])]

/-- The dependency index the C5 counterexample schema produces. -/
def c5Index : FieldCondMap :=
  [([.str "a"], [enabledCondition [.str "a", .str "enabled"]]),
   ([.str "a", .str "b"], [enabledCondition [.str "a", .str "b", .str "enabled"]])]

/-- A snapshot whose `stderr` is nonempty without a connection refusal. -/
def stderrSnap : Snapshot := ⟨.obj .nil, "", "boom", [], []⟩

/-- A snapshot whose `stdout` reports an unchanged custom resource. -/
def unchangedSnap : Snapshot := ⟨.obj .nil, "ok unchanged", "", [], []⟩

/-- A snapshot with empty command output. -/
def quietSnap : Snapshot := ⟨.obj .nil, "", "", [], []⟩

/-! ### Shared lemmas -/

theorem firstInconsistent_eq_find (collab : Collaborators) (d : Diff) (l : List Diff) :
    firstInconsistent collab d l =
      l.find? (fun m => !(collab.compare d.prev d.curr m.prev m.curr)) := by
  induction l with
  | nil => rfl
  | cons m rest ih =>
    rw [firstInconsistent, List.find?, ih]
    cases collab.compare d.prev d.curr m.prev m.curr <;> simp

theorem foldl_ite_or (p : α → Bool) (l : List α) (b : Bool) :
    l.foldl (fun acc x => if p x then true else acc) b = (b || l.any p) := by
  induction l generalizing b with
  | nil => simp
  | cons x xs ih =>
    rw [List.foldl_cons, List.any_cons, ih]
    cases p x <;> cases b <;> simp

theorem any_flatten (L : List (List α)) (p : α → Bool) :
    L.flatten.any p = L.any (fun l => l.any p) := by
  induction L with
  | nil => rfl
  | cons x xs ih => simp [List.any_append, ih]

theorem any_map2 (l : List α) (f : α → β) (p : β → Bool) :
    (l.map f).any p = l.any (fun x => p (f x)) := by
  induction l with
  | nil => rfl
  | cons x xs ih => rw [List.map_cons, List.any_cons, List.any_cons, ih]

theorem any_flatten3 (w : SystemDeltaMap) (p : Diff → Bool) :
    (flatten3 w).any p = w.any (fun r => r.2.any (fun t => t.2.any (fun kv => p kv.2))) := by
  induction w with
  | nil => rfl
  | cons r rs ih =>
    have h : flatten3 (r :: rs) = (r.2.map (fun t => t.2.map (·.2))).flatten ++ flatten3 rs := by
      simp [flatten3]
    rw [h, List.any_append, ih, List.any_cons, any_flatten]
    simp only [any_map2]

theorem wildcard_mid (collab : Collaborators) (delta : Diff)
    (rs : List (String × List (String × Diff))) (b : Bool) :
    rs.foldl
      (fun found t =>
        t.2.foldl
          (fun found kv =>
            if collab.compare delta.prev delta.curr kv.2.prev kv.2.curr then true else found)
          found)
      b
    = (b || rs.any (fun t =>
        t.2.any (fun kv => collab.compare delta.prev delta.curr kv.2.prev kv.2.curr))) := by
  induction rs generalizing b with
  | nil => simp
  | cons t ts ih =>
    rw [List.foldl_cons, List.any_cons, ih, foldl_ite_or]
    cases b <;> simp [Bool.or_assoc]

theorem wildcard_outer (collab : Collaborators) (delta : Diff) (w : SystemDeltaMap) (b : Bool) :
    w.foldl
      (fun found r =>
        r.2.foldl
          (fun found t =>
            t.2.foldl
              (fun found kv =>
                if collab.compare delta.prev delta.curr kv.2.prev kv.2.curr then true else found)
              found)
          found)
      b
    = (b || w.any (fun r => r.2.any (fun t =>
        t.2.any (fun kv => collab.compare delta.prev delta.curr kv.2.prev kv.2.curr)))) := by
  induction w generalizing b with
  | nil => simp
  | cons r rs ih =>
    rw [List.foldl_cons, List.any_cons, ih, wildcard_mid]
    cases b <;> simp [Bool.or_assoc]

theorem wildcardFound_eq_any (collab : Collaborators) (delta : Diff) (working : SystemDeltaMap) :
    wildcardFound collab delta working
      = (flatten3 working).any (fun s => collab.compare delta.prev delta.curr s.prev s.curr) := by
  rw [wildcardFound, wildcard_outer, any_flatten3, Bool.false_or]

/-- The `check_resources` loop coincides with the claim's declarative
per-delta description. -/
theorem checkDeltas_eq_claim (ctx : CheckerContext) (collab : Collaborators)
    (snapshotInput : JsonVal) (working : SystemDeltaMap) (l : List Diff) (fcm : FieldCondMap) :
    checkDeltas ctx collab snapshotInput working l fcm =
      stateOracleClaim ctx collab snapshotInput working l fcm := by
  induction l generalizing fcm with
  | nil => rfl
  | cons delta rest ih =>
    rw [checkDeltas, stateOracleClaim]
    cases collab.input_compare delta.prev delta.curr
    · simp only [Bool.false_eq_true, if_false]
      cases hss : should_skip_input_delta ctx collab snapshotInput delta fcm with
      | error e => rfl
      | ok pr =>
        obtain ⟨skip, fcm2⟩ := pr
        cases skip
        · simp only [firstInconsistent_eq_find, wildcardFound_eq_any]
          cases (list_matched_fields collab delta.path working).find?
              (fun m => !(collab.compare delta.prev delta.curr m.prev m.curr)) with
          | some m => rfl
          | none =>
            cases (list_matched_fields collab delta.path working).isEmpty
            · exact ih fcm2
            · cases (flatten3 working).any
                  (fun s => collab.compare delta.prev delta.curr s.prev s.curr)
              · rfl
              · exact ih fcm2
        · exact ih fcm2
    · simp only [if_true]
      exact ih fcm

/-! ### C1 -/

/-- C1: for every input delta that survives the input-equivalence filter and
the skip engine, `check_resources` returns the inconsistency `Error` as soon
as some longest-suffix match fails `compare`; with an empty match set it
returns the no-matching-fields `Error` exactly when no state delta anywhere
in the system delta with `custom_resource_spec` removed satisfies `compare`;
and when every input delta is equivalent, skipped, or matched consistently it
returns `Pass` — stated as equality with `stateOracleClaim`, the declarative
reading of the claim, around the source's write/pop plumbing. -/
theorem c1_state_oracle (ctx : CheckerContext) (collab : Collaborators) (snapshot : Snapshot)
    (prevInput : JsonVal) (prevSystemState : SystemState) (fcm : FieldCondMap)
    (delta_log_path : String) :
    check_resources ctx collab snapshot prevInput prevSystemState fcm delta_log_path =
      (let g := get_deltas collab snapshot prevInput prevSystemState
       if collab.writeOk then
         match popKey g.2.1 "custom_resource_spec" with
         | some working =>
           match stateOracleClaim ctx collab snapshot.input working (flattenInput g.1) fcm with
           | .error e => .error e
           | .ok (result, fcm2) => .ok (result, fcm2, g.2.2, [delta_log_path])
         | none => .error .keyError
       else .error .ioError) := by
  unfold check_resources
  simp only [checkDeltas_eq_claim]

/-! ### C3 -/

theorem maxOverlap_init_le (canon : Atom → Atom) (path : Path) (l : List Diff) (b : Nat) :
    b ≤ l.foldl (fun m d => max m (suffixOverlap canon path d.path)) b := by
  induction l generalizing b with
  | nil => exact le_refl b
  | cons d rest ih => exact le_trans (le_max_left _ _) (ih _)

theorem maxOverlap_foldl_mono (canon : Atom → Atom) (path : Path) (l : List Diff)
    {b b' : Nat} (h : b ≤ b') :
    l.foldl (fun m d => max m (suffixOverlap canon path d.path)) b ≤
      l.foldl (fun m d => max m (suffixOverlap canon path d.path)) b' := by
  induction l generalizing b b' with
  | nil => exact h
  | cons d rest ih => exact ih (max_le_max h (le_refl _))

theorem mem_le_maxOverlap (canon : Atom → Atom) (path : Path) (l : List Diff) (x : Diff)
    (hx : x ∈ l) :
    suffixOverlap canon path x.path ≤ maxOverlap canon path l := by
  unfold maxOverlap
  induction l with
  | nil => cases hx
  | cons d rest ih =>
    rw [List.foldl_cons]
    rcases List.mem_cons.1 hx with h | h
    · subst h
      exact le_trans (le_max_right _ _) (maxOverlap_init_le canon path rest _)
    · exact le_trans (ih h) (maxOverlap_foldl_mono canon path rest (Nat.zero_le _))

theorem maxOverlap_append_singleton (canon : Atom → Atom) (path : Path) (l : List Diff)
    (d : Diff) :
    maxOverlap canon path (l ++ [d]) =
      max (maxOverlap canon path l) (suffixOverlap canon path d.path) := by
  unfold maxOverlap
  rw [List.foldl_append, List.foldl_cons, List.foldl_nil]

/-- The running `(results, max_match)` state of `_list_matched_fields` after
the whole loop: the maximum overlap, together with every delta achieving it
when it is nonzero. -/
theorem listMatched_fold (canon : Atom → Atom) (path : Path) (l : List Diff) :
    l.foldl (listMatchedStep canon path) ([], 0) =
      (if maxOverlap canon path l = 0 then []
       else l.filter (fun d => suffixOverlap canon path d.path == maxOverlap canon path l),
       maxOverlap canon path l) := by
  induction l using List.reverseRecOn with
  | nil => rfl
  | append_singleton l d ih =>
    rw [List.foldl_append, List.foldl_cons, List.foldl_nil, ih,
      maxOverlap_append_singleton, List.filter_append]
    simp only [listMatchedStep]
    have hmem : ∀ a ∈ l, suffixOverlap canon path a.path ≤ maxOverlap canon path l :=
      fun a ha => mem_le_maxOverlap canon path l a ha
    generalize hM : maxOverlap canon path l = M at hmem ⊢
    generalize hp : suffixOverlap canon path d.path = p
    rcases Nat.lt_trichotomy p M with h | h | h
    · have hM0 : ¬ M = 0 := by omega
      have hmax : M ⊔ p = M := Nat.max_eq_left h.le
      have hne : (p == M) = false := beq_eq_false_iff_ne.2 (Nat.ne_of_lt h)
      simp [hp, hne, Nat.not_lt.2 h.le, hmax, hM0, List.filter]
    · subst h
      by_cases hp0 : p = 0
      · subst hp0
        simp [hp, List.filter]
      · simp [hp, hp0, List.filter]
    · have hp0 : ¬ p = 0 := by omega
      have hmax : M ⊔ p = p := Nat.max_eq_right h.le
      have hne : (p == M) = false := beq_eq_false_iff_ne.2 (Nat.ne_of_gt h)
      have hfl : (List.filter (fun x => suffixOverlap canon path x.path == p) l) = [] := by
        apply List.filter_eq_nil_iff.2
        intro a ha
        have h2 := hmem a ha
        simp [Nat.ne_of_lt (lt_of_le_of_lt h2 h)]
      simp [hp, hne, h, hmax, hp0, hfl, List.filter]

/-- C3: `_list_matched_fields` returns exactly the deltas of the system delta
map whose canonicalized suffix overlap with the input path is maximal and
nonzero (all ties at the maximal suffix length, in iteration order), the
empty list when even the maximal overlap is zero, and the empty list whenever
the last atom of the path is generic. -/
theorem c3_list_matched_fields (collab : Collaborators) (path : Path)
    (delta_dict : SystemDeltaMap) :
    list_matched_fields collab path delta_dict =
      if collab.genericFieldMatch (path.getLastD (.str "")) then []
      else if maxOverlap collab.canonicalize path (flatten3 delta_dict) = 0 then []
      else (flatten3 delta_dict).filter
        (fun d => suffixOverlap collab.canonicalize path d.path
            == maxOverlap collab.canonicalize path (flatten3 delta_dict)) := by
  unfold list_matched_fields
  cases hg : collab.genericFieldMatch (path.getLastD (.str "")) with
  | true => simp [hg]
  | false =>
    simp only [hg, Bool.false_eq_true, if_false]
    rw [listMatched_fold]

/-! ### C4 -/

/-- C4: at the failing input — delta path `["a","b","c"]` with the index keys
`["a","b"]` and then `["a"]`, both leading-atom prefixes — the source's
`find_nearest_parent` returns the *last* prefix key `["a"]` rather than the
longest one `["a","b"]`: its local `length` is initialised to `0`, compared,
and never reassigned, so every nonempty prefix key overwrites the previous
choice.  The second and third conjuncts record that the longer key is also a
prefix and strictly longer. -/
theorem c4_find_nearest_parent_failing :
    find_nearest_parent [Atom.str "a", .str "b", .str "c"]
        [[Atom.str "a", .str "b"], [Atom.str "a"]] = some [Atom.str "a"] ∧
      atomsLeadEq [Atom.str "a", .str "b"] [Atom.str "a", .str "b", .str "c"] = true ∧
      ([Atom.str "a"] : Path).length < ([Atom.str "a", .str "b"] : Path).length := by
  exact ⟨rfl, rfl, by decide⟩

/-! ### C5 -/

theorem lookupFcm_mapF (F : Path → List Condition → List Condition) (l : FieldCondMap)
    (k : Path) :
    lookupFcm (l.map (fun e => (e.1, F e.1 e.2))) k = (lookupFcm l k).map (F k) := by
  induction l with
  | nil => rfl
  | cons e rest ih =>
    obtain ⟨k', cs⟩ := e
    by_cases hk : (k' == k) = true
    · have hkk : k' = k := eq_of_beq hk
      subst hkk
      simp [lookupFcm, List.find?, hk]
    · simp only [lookupFcm, List.map_cons, List.find?] at ih ⊢
      rw [Bool.not_eq_true] at hk
      rw [hk]
      exact ih

theorem encode_dependency_lookup (fcm : FieldCondMap) (depender dependee k : Path) :
    lookupFcm (encode_dependency fcm depender dependee) k =
      (lookupFcm (if (lookupFcm fcm depender).isNone then fcm ++ [(depender, [])] else fcm)
          k).map
        (fun cs => if is_subfield k depender then cs ++ [enabledCondition dependee] else cs) := by
  unfold encode_dependency
  have hfun : (fun e : Path × List Condition =>
      if is_subfield e.1 depender then (e.1, e.2 ++ [enabledCondition dependee]) else e) =
      (fun e : Path × List Condition =>
        (e.1, if is_subfield e.1 depender then e.2 ++ [enabledCondition dependee] else e.2)) := by
    funext e
    by_cases h : is_subfield e.1 depender = true <;> simp [h]
  rw [hfun]
  exact lookupFcm_mapF
    (fun p cs => if is_subfield p depender then cs ++ [enabledCondition dependee] else cs) _ k

theorem lookupFcm_append_self (fcm : FieldCondMap) (depender : Path)
    (h : (lookupFcm fcm depender).isNone = true) :
    lookupFcm (fcm ++ [(depender, [])]) depender = some [] := by
  unfold lookupFcm at h ⊢
  rw [List.find?_append]
  have h1 : fcm.find? (fun e => e.1 == depender) = none := by
    cases hf : fcm.find? (fun e => e.1 == depender) with
    | none => rfl
    | some e =>
      rw [hf] at h
      simp at h
  rw [h1]
  simp [List.find?]

/-- C5 (amended): `encode_dependency` ensures the depender's path is a key of
the index, and appends the enabled-condition to every key *currently* in the
index of which the depender's path is a leading-atom prefix (the depender
itself included).  Keys registered by later `encode_dependency` calls do not
retroactively receive earlier conditions, which is what refutes the claimed
global invariant. -/
theorem c5_encode_dependency_local :
    (∀ (fcm : FieldCondMap) (depender dependee : Path),
      (lookupFcm (encode_dependency fcm depender dependee) depender).isSome = true) ∧
    (∀ (fcm : FieldCondMap) (depender dependee k : Path) (conds : List Condition),
      lookupFcm (encode_dependency fcm depender dependee) k = some conds →
      is_subfield k depender = true →
      enabledCondition dependee ∈ conds) := by
  constructor
  · intro fcm depender dependee
    rw [encode_dependency_lookup]
    by_cases h : (lookupFcm fcm depender).isNone = true
    · rw [if_pos h, lookupFcm_append_self fcm depender h]
      rfl
    · rw [if_neg h]
      cases hf : lookupFcm fcm depender with
      | none => rw [hf] at h; exact absurd rfl h
      | some cs => rfl
  · intro fcm depender dependee k conds hk hsub
    rw [encode_dependency_lookup] at hk
    cases hfind : lookupFcm
        (if (lookupFcm fcm depender).isNone then fcm ++ [(depender, [])] else fcm) k with
    | none => rw [hfind] at hk; cases hk
    | some cs =>
      rw [hfind] at hk
      simp only [Option.map_some', hsub, if_true] at hk
      cases hk
      simp

/-- C5 (counterexample): running the dependency encoding on a schema whose
`a.enabled` gate is listed before the child object `a.b` leaves the index
with key `["a"]` carrying the `a.enabled` condition while the later key
`["a","b"]` — of which `["a"]` is a proper prefix — does not carry it, so the
claimed invariant fails after construction. -/
theorem c5_counterexample :
    checker_init plainCtx c5Root = .ok c5Index ∧
      lookupFcm c5Index [Atom.str "a"] = some [enabledCondition [Atom.str "a", .str "enabled"]] ∧
      lookupFcm c5Index [Atom.str "a", .str "b"] =
        some [enabledCondition [Atom.str "a", .str "b", .str "enabled"]] ∧
      is_subfield [Atom.str "a", .str "b"] [Atom.str "a"] = true ∧
      enabledCondition [Atom.str "a", .str "enabled"] ∉
        [enabledCondition [Atom.str "a", .str "b", .str "enabled"]] := by
  refine ⟨rfl, rfl, rfl, rfl, ?_⟩
  intro hmem
  simp [enabledCondition] at hmem

/-- C5 (witness for the amended theorem). -/
theorem c5_witness :
    (lookupFcm (encode_dependency [] [Atom.str "a"] [Atom.str "a", .str "enabled"])
        [Atom.str "a"]).isSome = true ∧
      lookupFcm (encode_dependency [] [Atom.str "a"] [Atom.str "a", .str "enabled"])
          [Atom.str "a"] = some [enabledCondition [Atom.str "a", .str "enabled"]] ∧
      is_subfield [Atom.str "a"] [Atom.str "a"] = true ∧
      enabledCondition [Atom.str "a", .str "enabled"] ∈
        [enabledCondition [Atom.str "a", .str "enabled"]] :=
  ⟨c5_encode_dependency_local.1 [] [Atom.str "a"] [Atom.str "a", .str "enabled"], rfl, rfl,
   c5_encode_dependency_local.2 [] [Atom.str "a"] [Atom.str "a", .str "enabled"] [Atom.str "a"]
     [enabledCondition [Atom.str "a", .str "enabled"]] rfl rfl⟩

/-! ### The `check` pipeline, factored (shared) -/

/-- `check` factored through the oracle verdicts: the empty-state guard
first; then the input oracle's verdict returned as is whenever it is not
`Pass`; otherwise the state oracle (whose exception propagates), the log
oracle, and the combination of the two with the hardcoded `Pass` health
verdict. -/
theorem check_eq_characterization (ctx : CheckerContext) (collab : Collaborators)
    (snapshot prev_snapshot : Snapshot) (fcm : FieldCondMap) (generation : Nat) :
    check ctx collab snapshot prev_snapshot fcm generation =
      if snapshot.system_state.isEmpty then
        .ok ⟨.invalidInput none, fcm, prev_snapshot.system_state, []⟩
      else
        match check_input collab snapshot
            (get_deltas collab snapshot prev_snapshot.input prev_snapshot.system_state).1 with
        | .pass =>
          match check_resources ctx collab snapshot prev_snapshot.input
              (get_deltas collab snapshot prev_snapshot.input prev_snapshot.system_state).2.2
              fcm (deltaLogPath ctx generation) with
          | .error e => .error e
          | .ok (state_result, fcm2, prevState2, writes) =>
            .ok ⟨combineVerdicts .pass state_result
                  (check_operator_log collab snapshot prev_snapshot.input prevState2).1,
                 fcm2,
                 (check_operator_log collab snapshot prev_snapshot.input prevState2).2,
                 writes⟩
        | r =>
          .ok ⟨r, fcm,
               (get_deltas collab snapshot prev_snapshot.input prev_snapshot.system_state).2.2,
               []⟩ := by
  unfold check
  cases hempty : snapshot.system_state.isEmpty with
  | true => simp [hempty]
  | false =>
    simp only [hempty, Bool.false_eq_true, if_false]
    cases hin : check_input collab snapshot
        (get_deltas collab snapshot prev_snapshot.input prev_snapshot.system_state).1 with
    | pass =>
      cases hres : check_resources ctx collab snapshot prev_snapshot.input
          (get_deltas collab snapshot prev_snapshot.input prev_snapshot.system_state).2.2
          fcm (deltaLogPath ctx generation) with
      | error e => rfl
      | ok out =>
        obtain ⟨state_result, fcm2, prevState2, writes⟩ := out
        cases hlog : (check_operator_log collab snapshot prev_snapshot.input prevState2).1 with
        | pass =>
          cases state_result <;> simp [combineVerdicts, hlog]
        | unchanged =>
          cases state_result <;> simp [combineVerdicts, hlog]
        | connectionRefused =>
          cases state_result <;> simp [combineVerdicts, hlog]
        | invalidInput p => simp [combineVerdicts, hlog]
        | error t m d md =>
          cases state_result <;> simp [combineVerdicts, hlog]
    | unchanged => rfl
    | connectionRefused => rfl
    | invalidInput p => rfl
    | error t m d md => rfl

/-! ### C2 -/

/-- C2 (counterexample): on a snapshot whose `stderr` reports a connection
refusal while the log oracle would report `InvalidInput`, `check` returns
`ConnectionRefused` — `InvalidInput` is *not* returned in preference to
`ConnectionRefused`, refuting the claimed precedence. -/
theorem c2_counterexample :
    (check_operator_log crCollab crSnap emptyPrev.input emptyPrev.system_state).1 =
        .invalidInput (some [Atom.str "spec"]) ∧
      resultOf (check plainCtx crCollab crSnap emptyPrev [] 0) = some .connectionRefused := by
  exact ⟨rfl, rfl⟩

/-- C2 (amended): `check` returns the InputOracle's verdict first whenever it
is not `Pass` (so `ConnectionRefused` from the InputOracle takes precedence
over `InvalidInput` from the LogOracle); when the InputOracle passes, the
precedence is `InvalidInput` from the LogOracle, then `Error` from the
HealthOracle (hardcoded `Pass`), then `Error` from the StateOracle, then
`Error` from the LogOracle, otherwise `Pass` — with the empty-state guard
returning `InvalidInput(None)` before everything. -/
theorem c2_check_combination (ctx : CheckerContext) (collab : Collaborators)
    (snapshot prev_snapshot : Snapshot) (fcm : FieldCondMap) (generation : Nat) :
    check ctx collab snapshot prev_snapshot fcm generation =
      if snapshot.system_state.isEmpty then
        .ok ⟨.invalidInput none, fcm, prev_snapshot.system_state, []⟩
      else
        match check_input collab snapshot
            (get_deltas collab snapshot prev_snapshot.input prev_snapshot.system_state).1 with
        | .pass =>
          match check_resources ctx collab snapshot prev_snapshot.input
              (get_deltas collab snapshot prev_snapshot.input prev_snapshot.system_state).2.2
              fcm (deltaLogPath ctx generation) with
          | .error e => .error e
          | .ok (state_result, fcm2, prevState2, writes) =>
            .ok ⟨combineVerdicts .pass state_result
                  (check_operator_log collab snapshot prev_snapshot.input prevState2).1,
                 fcm2,
                 (check_operator_log collab snapshot prev_snapshot.input prevState2).2,
                 writes⟩
        | r =>
          .ok ⟨r, fcm,
               (get_deltas collab snapshot prev_snapshot.input prev_snapshot.system_state).2.2,
               []⟩ :=
  check_eq_characterization ctx collab snapshot prev_snapshot fcm generation

/-! ### C6 -/

/-- C6: inside the input oracle the precedence is
`ConnectionRefused > InvalidInput > Unchanged > Pass`: `ConnectionRefused`
when `stderr` contains `connection refused`; otherwise `InvalidInput` with
the collaborator's responsible path when `invalid_input_message` signals
invalid or `stderr` is nonempty; otherwise `Unchanged` when either stream
contains `unchanged`; otherwise `Pass`. -/
theorem c6_check_input_precedence (collab : Collaborators) (snapshot : Snapshot)
    (input_delta : InputDelta) :
    (strContains snapshot.stderr "connection refused" = true →
      check_input collab snapshot input_delta = .connectionRefused) ∧
    (strContains snapshot.stderr "connection refused" = false →
      ((collab.invalid_input_message snapshot.stderr input_delta).1 = true ∨
        0 < snapshot.stderr.length) →
      check_input collab snapshot input_delta =
        .invalidInput (collab.invalid_input_message snapshot.stderr input_delta).2) ∧
    (strContains snapshot.stderr "connection refused" = false →
      (collab.invalid_input_message snapshot.stderr input_delta).1 = false →
      snapshot.stderr.length = 0 →
      (strContains snapshot.stdout "unchanged" || strContains snapshot.stderr "unchanged")
        = true →
      check_input collab snapshot input_delta = .unchanged) ∧
    (strContains snapshot.stderr "connection refused" = false →
      (collab.invalid_input_message snapshot.stderr input_delta).1 = false →
      snapshot.stderr.length = 0 →
      (strContains snapshot.stdout "unchanged" || strContains snapshot.stderr "unchanged")
        = false →
      check_input collab snapshot input_delta = .pass) := by
  refine ⟨?_, ?_, ?_, ?_⟩
  · intro h1
    unfold check_input
    simp [h1]
  · intro h1 h2
    unfold check_input
    rcases h2 with h2 | h2 <;> simp [h1, h2]
  · intro h1 h2 h3 h4
    unfold check_input
    simp [h1, h2, h3, h4]
  · intro h1 h2 h3 h4
    unfold check_input
    simp only [Bool.or_eq_false_iff] at h4
    simp [h1, h2, h3, h4.1, h4.2]

/-- C6 (witness): the four precedence levels at concrete snapshots. -/
theorem c6_witness :
    check_input baseCollab crSnap [] = .connectionRefused ∧
      check_input baseCollab stderrSnap [] = .invalidInput none ∧
      check_input baseCollab unchangedSnap [] = .unchanged ∧
      check_input baseCollab quietSnap [] = .pass :=
  ⟨(c6_check_input_precedence baseCollab crSnap []).1 rfl,
   (c6_check_input_precedence baseCollab stderrSnap []).2.1 rfl (Or.inr (by decide)),
   (c6_check_input_precedence baseCollab unchangedSnap []).2.2.1 rfl rfl rfl rfl,
   (c6_check_input_precedence baseCollab quietSnap []).2.2.2 rfl rfl rfl rfl⟩

/-! ### C7 -/

theorem assocFind_append_single (prev : SystemState) (kind : String) (v : JsonVal)
    (k : String) (hne : ¬ kind = k) :
    assocFind (prev ++ [(kind, v)]) k = assocFind prev k := by
  unfold assocFind
  rw [List.find?_append]
  have h1 : List.find? (fun e => e.1 == k) [(kind, v)] = none := by
    have hb : (kind == k) = false := beq_eq_false_iff_ne.2 hne
    simp [List.find?, hb]
  rw [h1]
  cases List.find? (fun e => e.1 == k) prev <;> rfl

theorem missingKinds_append_single (rest prev : SystemState) (kind : String) (v : JsonVal)
    (hnotin : kind ∉ rest.map Prod.fst) :
    missingKinds (prev ++ [(kind, v)]) rest = missingKinds prev rest := by
  unfold missingKinds
  congr 1
  apply List.filter_congr
  intro kv hkv
  have hne : ¬ kind = kv.1 := by
    intro he
    exact hnotin (he ▸ List.mem_map_of_mem Prod.fst hkv)
  rw [assocFind_append_single prev kind v kv.1 hne]

theorem stateDeltaLoop_prev (collab : Collaborators) (curr prev : SystemState)
    (h : (curr.map Prod.fst).Nodup) :
    (stateDeltaLoop collab curr prev).2 = prev ++ missingKinds prev curr := by
  induction curr generalizing prev with
  | nil => simp [stateDeltaLoop, missingKinds]
  | cons kv rest ih =>
    obtain ⟨kind, docs⟩ := kv
    have hnd : (rest.map Prod.fst).Nodup := (List.nodup_cons.1 (by simpa using h)).2
    have hnotin : kind ∉ rest.map Prod.fst := (List.nodup_cons.1 (by simpa using h)).1
    cases hk : (assocFind prev kind).isSome with
    | true =>
      have hloop : (stateDeltaLoop collab ((kind, docs) :: rest) prev).2 =
          (stateDeltaLoop collab rest prev).2 := by
        simp [stateDeltaLoop, hk]
      rw [hloop, ih prev hnd]
      have hmk : missingKinds prev ((kind, docs) :: rest) = missingKinds prev rest := by
        unfold missingKinds
        have : (assocFind prev kind).isNone = false := by
          cases hf : assocFind prev kind with
          | none => rw [hf] at hk; cases hk
          | some _ => rfl
        simp [List.filter, this]
      rw [hmk]
    | false =>
      have hnone : (assocFind prev kind).isNone = true := by
        cases hf : assocFind prev kind with
        | none => rfl
        | some _ => rw [hf] at hk; cases hk
      have hloop : (stateDeltaLoop collab ((kind, docs) :: rest) prev).2 =
          (stateDeltaLoop collab rest (prev ++ [(kind, .obj .nil)])).2 := by
        simp [stateDeltaLoop, hk]
      rw [hloop, ih (prev ++ [(kind, JsonVal.obj JsonObj.nil)]) hnd,
        missingKinds_append_single rest prev kind (JsonVal.obj JsonObj.nil) hnotin]
      have hmk : missingKinds prev ((kind, docs) :: rest) =
          (kind, JsonVal.obj .nil) :: missingKinds prev rest := by
        unfold missingKinds
        simp [List.filter, hnone]
      rw [hmk, List.append_assoc]
      rfl

/-- C7 (amended): `check` does mutate, in exactly two places.  First,
`get_deltas` appends to `prev_snapshot.system_state` one empty mapping per
resource kind of the current snapshot that the previous state lacks (in
order).  Second, `check_condition` hands back the stored condition record
with every `'INDEX'` atom of its field path replaced by the integer `0`, the
operator untouched, and the value either untouched or — when the boolean
retry fires — replaced by the coerced boolean. -/
theorem c7_mutation_characterization :
    (∀ (collab : Collaborators) (snapshot : Snapshot) (prevInput : JsonVal)
        (prevSystemState : SystemState),
      (snapshot.system_state.map Prod.fst).Nodup →
      (get_deltas collab snapshot prevInput prevSystemState).2.2 =
        prevSystemState ++ missingKinds prevSystemState snapshot.system_state) ∧
    (∀ (collab : Collaborators) (input : JsonVal) (condition : Condition)
        (out : Bool × Condition),
      check_condition collab input condition = .ok out →
      out.2.field = normalizeIndexAtoms condition.field ∧ out.2.op = condition.op ∧
        (out.2.value = condition.value ∨ out.2.value = boolCoerce condition.value)) := by
  constructor
  · intro collab snapshot prevInput prevSystemState h
    show (stateDeltaLoop collab snapshot.system_state prevSystemState).2 = _
    exact stateDeltaLoop_prev collab snapshot.system_state prevSystemState h
  · intro collab input condition out h
    have hc : check_condition collab input condition =
        match descend input (normalizeIndexAtoms condition.field) with
        | .error e =>
          if e == PyErr.keyError || e == PyErr.typeError then
            .ok (condition.op == "==" && jsonBeq condition.value .null,
                 ⟨normalizeIndexAtoms condition.field, condition.op, condition.value⟩)
          else .error e
        | .ok value =>
          if collab.applyOp condition.op value condition.value then
            .ok (true, ⟨normalizeIndexAtoms condition.field, condition.op, condition.value⟩)
          else
            match value with
            | .boolean _ =>
              .ok (collab.applyOp condition.op value
                     (.boolean (jsonBeq condition.value (.str "true"))),
                   ⟨normalizeIndexAtoms condition.field, condition.op,
                    .boolean (jsonBeq condition.value (.str "true"))⟩)
            | _ =>
              .ok (false,
                   ⟨normalizeIndexAtoms condition.field, condition.op, condition.value⟩) := rfl
    rw [hc] at h
    split at h
    · rename_i e heq
      by_cases hke : (e == PyErr.keyError || e == PyErr.typeError) = true
      · rw [if_pos hke] at h
        cases h
        exact ⟨rfl, rfl, Or.inl rfl⟩
      · rw [if_neg hke] at h
        cases h
    · rename_i value heq
      by_cases hap : collab.applyOp condition.op value condition.value = true
      · rw [if_pos hap] at h
        cases h
        exact ⟨rfl, rfl, Or.inl rfl⟩
      · rw [if_neg hap] at h
        split at h
        · cases h
          exact ⟨rfl, rfl, Or.inr rfl⟩
        all_goals (cases h; exact ⟨rfl, rfl, Or.inl rfl⟩)

/-- C7 (counterexample): a `check` call after which both
`prev_snapshot.system_state` and the stored condition record differ from
their pre-call values: the empty predecessor state gains two kinds, and the
condition's `'INDEX'` field atom is overwritten with `0`. -/
theorem c7_counterexample :
    check plainCtx c7Collab c7Snap emptyPrev c7Fcm 0 =
        .ok ⟨.pass, [([Atom.str "spec"], [⟨[Atom.str "spec", .idx 0], "==", .null⟩])],
             [("custom_resource_spec", .obj .nil), ("pod", .obj .nil)], ["t/delta-0.log"]⟩ ∧
      emptyPrev.system_state ≠
        [("custom_resource_spec", JsonVal.obj .nil), ("pod", JsonVal.obj .nil)] ∧
      c7Fcm ≠ [([Atom.str "spec"], [⟨[Atom.str "spec", .idx 0], "==", JsonVal.null⟩])] := by
  refine ⟨rfl, ?_, ?_⟩
  · intro h
    simp [emptyPrev] at h
  · intro h
    simp [c7Fcm, Condition.mk.injEq] at h

/-- C7 (witness for the amended theorem). -/
theorem c7_witness :
    (c7Snap.system_state.map Prod.fst).Nodup ∧
      (get_deltas c7Collab c7Snap emptyPrev.input emptyPrev.system_state).2.2 =
        emptyPrev.system_state ++ missingKinds emptyPrev.system_state c7Snap.system_state ∧
      check_condition c7Collab (.obj .nil) ⟨[Atom.str "spec", .str "INDEX"], "==", .null⟩ =
        .ok (true, ⟨[Atom.str "spec", .idx 0], "==", .null⟩) ∧
      ((true, (⟨[Atom.str "spec", .idx 0], "==", JsonVal.null⟩ : Condition)).2.field =
        normalizeIndexAtoms [Atom.str "spec", .str "INDEX"]) :=
  ⟨by decide,
   c7_mutation_characterization.1 c7Collab c7Snap emptyPrev.input emptyPrev.system_state
     (by decide),
   rfl,
   (c7_mutation_characterization.2 c7Collab (.obj .nil)
     ⟨[Atom.str "spec", .str "INDEX"], "==", .null⟩
     (true, ⟨[Atom.str "spec", .idx 0], "==", .null⟩) rfl).1⟩

/-! ### C8 -/

set_option linter.unreachableTactic false in
set_option linter.unusedTactic false in
theorem getItem_error_mem (v : JsonVal) (a : Atom) (e : PyErr) (h : getItem v a = .error e) :
    e = .keyError ∨ e = .typeError ∨ e = .indexError := by
  cases v <;> cases a <;> simp only [getItem] at h
  all_goals first
    | (cases h; first | exact Or.inl rfl | exact Or.inr (Or.inl rfl) | exact Or.inr (Or.inr rfl))
    | (split at h
       · cases h
       · cases h
         first
           | exact Or.inl rfl
           | exact Or.inr (Or.inl rfl)
           | exact Or.inr (Or.inr rfl))

theorem descend_error_mem (p : Path) (v : JsonVal) (e : PyErr) (h : descend v p = .error e) :
    e = .keyError ∨ e = .typeError ∨ e = .indexError := by
  induction p generalizing v with
  | nil => cases h
  | cons a rest ih =>
    unfold descend at h
    cases hg : getItem v a with
    | ok v2 => rw [hg] at h; exact ih v2 h
    | error e2 =>
      rw [hg] at h
      cases h
      exact getItem_error_mem v a e hg

theorem check_condition_error (collab : Collaborators) (input : JsonVal)
    (condition : Condition) (e : PyErr)
    (h : check_condition collab input condition = .error e) : e = .indexError := by
  have hc : check_condition collab input condition =
      match descend input (normalizeIndexAtoms condition.field) with
      | .error e =>
        if e == PyErr.keyError || e == PyErr.typeError then
          .ok (condition.op == "==" && jsonBeq condition.value .null,
               ⟨normalizeIndexAtoms condition.field, condition.op, condition.value⟩)
        else .error e
      | .ok value =>
        if collab.applyOp condition.op value condition.value then
          .ok (true, ⟨normalizeIndexAtoms condition.field, condition.op, condition.value⟩)
        else
          match value with
          | .boolean _ =>
            .ok (collab.applyOp condition.op value
                   (.boolean (jsonBeq condition.value (.str "true"))),
                 ⟨normalizeIndexAtoms condition.field, condition.op,
                  .boolean (jsonBeq condition.value (.str "true"))⟩)
          | _ =>
            .ok (false,
                 ⟨normalizeIndexAtoms condition.field, condition.op, condition.value⟩) := rfl
  rw [hc] at h
  split at h
  · rename_i e2 heq
    by_cases hke : (e2 == PyErr.keyError || e2 == PyErr.typeError) = true
    · rw [if_pos hke] at h
      cases h
    · rw [if_neg hke] at h
      cases h
      rcases descend_error_mem _ _ _ heq with h1 | h1 | h1
      · exact absurd (by simp [h1]) hke
      · exact absurd (by simp [h1]) hke
      · exact h1
  · rename_i value heq
    split at h
    · cases h
    · split at h <;> cases h

theorem evalConditions_error (collab : Collaborators) (input : JsonVal)
    (conds : List Condition) (e : PyErr)
    (h : evalConditions collab input conds = .error e) : e = .indexError := by
  induction conds with
  | nil => cases h
  | cons c rest ih =>
    unfold evalConditions at h
    cases hc : check_condition collab input c with
    | error e2 =>
      rw [hc] at h
      cases h
      exact check_condition_error collab input c e hc
    | ok pr =>
      rw [hc] at h
      obtain ⟨ok, c2⟩ := pr
      cases ok
      · cases h
      · cases he : evalConditions collab input rest with
        | error e2 => rw [he] at h; cases h; exact ih he
        | ok pr2 => rw [he] at h; cases h

theorem controlFlowSkip_no_error (ctx : CheckerContext) (delta : Diff) (fcm : FieldCondMap)
    (e : PyErr) (h : controlFlowSkip ctx delta fcm = .error e) : False := by
  unfold controlFlowSkip at h
  split at h
  · cases h
  · split at h <;> cases h

theorem should_skip_error (ctx : CheckerContext) (collab : Collaborators) (input : JsonVal)
    (delta : Diff) (fcm : FieldCondMap) (e : PyErr)
    (h : should_skip_input_delta ctx collab input delta fcm = .error e) :
    e = .indexError ∨ e = .keyError := by
  simp only [should_skip_input_delta] at h
  split at h
  · cases h
  · split at h
    · rename_i conds heq
      split at h
      · cases h
        rename_i e2 hev
        exact Or.inl (evalConditions_error collab input conds e hev)
      · split at h
        · cases h
        · exact absurd h (fun hc => controlFlowSkip_no_error ctx delta _ e hc)
    · split at h
      · split at h
        · rename_i parent hpar conds heq2
          split at h
          · cases h
            rename_i e2 hev
            exact Or.inl (evalConditions_error collab input conds e hev)
          · split at h
            · cases h
            · exact absurd h (fun hc => controlFlowSkip_no_error ctx delta _ e hc)
        · cases h
          exact Or.inr rfl
      · exact absurd h (fun hc => controlFlowSkip_no_error ctx delta _ e hc)

theorem checkDeltas_error (ctx : CheckerContext) (collab : Collaborators) (input : JsonVal)
    (working : SystemDeltaMap) (l : List Diff) (fcm : FieldCondMap) (e : PyErr)
    (h : checkDeltas ctx collab input working l fcm = .error e) :
    e = .indexError ∨ e = .keyError := by
  induction l generalizing fcm with
  | nil => cases h
  | cons delta rest ih =>
    simp only [checkDeltas] at h
    split at h
    · exact ih fcm h
    · split at h
      · cases h
        rename_i e2 hss
        exact should_skip_error ctx collab input delta fcm e hss
      · rename_i fcm2 hss
        exact ih fcm2 h
      · rename_i fcm2 hss
        split at h
        · cases h
        · split at h
          · split at h
            · exact ih fcm2 h
            · cases h
          · exact ih fcm2 h

theorem check_resources_error (ctx : CheckerContext) (collab : Collaborators)
    (snapshot : Snapshot) (prevInput : JsonVal) (prevSystemState : SystemState)
    (fcm : FieldCondMap) (p : String) (e : PyErr)
    (h : check_resources ctx collab snapshot prevInput prevSystemState fcm p = .error e) :
    (e = .ioError ∧ collab.writeOk = false) ∨ e = .keyError ∨ e = .indexError := by
  unfold check_resources at h
  cases hw : collab.writeOk with
  | false =>
    rw [hw] at h
    simp only [Bool.false_eq_true, if_false] at h
    cases h
    exact Or.inl ⟨rfl, rfl⟩
  | true =>
    rw [hw] at h
    simp only [if_true] at h
    split at h
    · rename_i working heq
      cases hcd : checkDeltas ctx collab snapshot.input working
          (flattenInput (get_deltas collab snapshot prevInput prevSystemState).1) fcm with
      | error e2 =>
        rw [hcd] at h
        cases h
        rcases checkDeltas_error _ _ _ _ _ _ _ hcd with h1 | h1
        · exact Or.inr (Or.inr h1)
        · exact Or.inr (Or.inl h1)
      | ok pr =>
        rw [hcd] at h
        obtain ⟨r, f2⟩ := pr
        cases h
    · cases h
      exact Or.inr (Or.inl rfl)

/-- C8 (amended): an exception *can* escape `check` — precisely a failure of
the delta-log open/write (`IOError`, exactly when the write collaborator
fails), the `KeyError` of popping a missing `custom_resource_spec`, or an
uncaught `IndexError` from condition evaluation; in every other situation
`check` returns a `RunResult`. -/
theorem c8_exception_classification (ctx : CheckerContext) (collab : Collaborators)
    (snapshot prev_snapshot : Snapshot) (fcm : FieldCondMap) (generation : Nat) (e : PyErr)
    (h : check ctx collab snapshot prev_snapshot fcm generation = .error e) :
    (e = .ioError ∧ collab.writeOk = false) ∨ e = .keyError ∨ e = .indexError := by
  rw [check_eq_characterization] at h
  split at h
  · cases h
  · split at h
    · cases hres : check_resources ctx collab snapshot prev_snapshot.input
          (get_deltas collab snapshot prev_snapshot.input prev_snapshot.system_state).2.2
          fcm (deltaLogPath ctx generation) with
      | error e2 =>
        rw [hres] at h
        cases h
        exact check_resources_error _ _ _ _ _ _ _ _ hres
      | ok out =>
        rw [hres] at h
        obtain ⟨sr, f2, p2, w⟩ := out
        cases h
    · cases h

/-- C8 (counterexample): when opening or writing the per-generation delta log
fails, the exception escapes `check` — no `RunResult` is returned, refuting
the claim as stated. -/
theorem c8_counterexample :
    checkReturned (check plainCtx noWriteCollab csrOnlySnap emptyPrev [] 0) = false := rfl

/-- C8 (witness for the amended theorem). -/
theorem c8_witness :
    check plainCtx noWriteCollab csrOnlySnap emptyPrev [] 0 = .error .ioError ∧
      ((PyErr.ioError = .ioError ∧ noWriteCollab.writeOk = false) ∨
        PyErr.ioError = .keyError ∨ PyErr.ioError = .indexError) :=
  ⟨rfl, c8_exception_classification plainCtx noWriteCollab csrOnlySnap emptyPrev [] 0
    .ioError rfl⟩

/-! ### C9 -/

theorem check_input_cases (collab : Collaborators) (snapshot : Snapshot)
    (input_delta : InputDelta) :
    check_input collab snapshot input_delta = .pass ∨
      check_input collab snapshot input_delta = .connectionRefused ∨
      (∃ p, check_input collab snapshot input_delta = .invalidInput p) ∨
      check_input collab snapshot input_delta = .unchanged := by
  simp only [check_input]
  split
  · exact Or.inr (Or.inl rfl)
  · split
    · exact Or.inr (Or.inr (Or.inl ⟨_, rfl⟩))
    · split
      · exact Or.inr (Or.inr (Or.inr rfl))
      · exact Or.inl rfl

theorem scanLog_cases (collab : Collaborators) (input_delta : InputDelta)
    (lines : List String) :
    scanLog collab input_delta lines = .pass ∨
      ∃ p, scanLog collab input_delta lines = .invalidInput p := by
  induction lines with
  | nil => exact Or.inl rfl
  | cons line rest ih =>
    simp only [scanLog]
    split
    · exact ih
    · split
      · exact ih
      · split
        · exact Or.inr ⟨_, rfl⟩
        · split
          · exact ih
          · exact ih

theorem checkDeltas_ok_cases (ctx : CheckerContext) (collab : Collaborators) (input : JsonVal)
    (working : SystemDeltaMap) (l : List Diff) (fcm : FieldCondMap) (r : RunResult)
    (f2 : FieldCondMap) (h : checkDeltas ctx collab input working l fcm = .ok (r, f2)) :
    r = .pass ∨ ∃ m d md, r = .error .SYSTEM_STATE m d md := by
  induction l generalizing fcm with
  | nil =>
    simp only [checkDeltas] at h
    cases h
    exact Or.inl rfl
  | cons delta rest ih =>
    simp only [checkDeltas] at h
    split at h
    · exact ih fcm h
    · split at h
      · cases h
      · rename_i fcm2 hss
        exact ih fcm2 h
      · rename_i fcm2 hss
        split at h
        · cases h
          exact Or.inr ⟨_, _, _, rfl⟩
        · split at h
          · split at h
            · exact ih fcm2 h
            · cases h
              exact Or.inr ⟨_, _, _, rfl⟩
          · exact ih fcm2 h

theorem check_resources_ok_cases (ctx : CheckerContext) (collab : Collaborators)
    (snapshot : Snapshot) (prevInput : JsonVal) (prevSystemState : SystemState)
    (fcm : FieldCondMap) (p : String) (sr : RunResult) (f2 : FieldCondMap)
    (p2 : SystemState) (w : List String)
    (h : check_resources ctx collab snapshot prevInput prevSystemState fcm p =
      .ok (sr, f2, p2, w)) :
    sr = .pass ∨ ∃ m d md, sr = .error .SYSTEM_STATE m d md := by
  simp only [check_resources] at h
  split at h
  · split at h
    · rename_i working hpop
      cases hcd : checkDeltas ctx collab snapshot.input working
          (flattenInput (get_deltas collab snapshot prevInput prevSystemState).1) fcm with
      | error e2 => rw [hcd] at h; cases h
      | ok pr =>
        rw [hcd] at h
        obtain ⟨r, f⟩ := pr
        cases h
        exact checkDeltas_ok_cases _ _ _ _ _ _ _ _ hcd
    · cases h
  · cases h

/-- C9: `check` never returns an `Error` verdict tagged `SYSTEM_HEALTH` —
the health verdict inside `check` is hardcoded to `Pass` (the `check_health`
call is commented out in the source), so for every context, collaborators,
snapshot pair and generation, a returned outcome's result is anything but a
health error. -/
theorem c9_no_health_error (ctx : CheckerContext) (collab : Collaborators)
    (snapshot prev_snapshot : Snapshot) (fcm : FieldCondMap) (generation : Nat)
    (out : CheckOutcome)
    (h : check ctx collab snapshot prev_snapshot fcm generation = .ok out) :
    ∀ msg d md, out.result ≠ .error .SYSTEM_HEALTH msg d md := by
  intro msg d md hcontra
  rw [check_eq_characterization] at h
  split at h
  · cases h
    simp at hcontra
  · cases hin : check_input collab snapshot
        (get_deltas collab snapshot prev_snapshot.input prev_snapshot.system_state).1 with
    | pass =>
      rw [hin] at h
      cases hres : check_resources ctx collab snapshot prev_snapshot.input
          (get_deltas collab snapshot prev_snapshot.input prev_snapshot.system_state).2.2
          fcm (deltaLogPath ctx generation) with
      | error e2 => rw [hres] at h; cases h
      | ok o =>
        rw [hres] at h
        obtain ⟨sr, f2, p2, w⟩ := o
        cases h
        simp only [check_operator_log] at hcontra
        rcases check_resources_ok_cases _ _ _ _ _ _ _ _ _ _ _ hres with hsr | ⟨m2, d2, md2, hsr⟩ <;>
          rcases scanLog_cases collab
              (get_deltas collab snapshot prev_snapshot.input p2).1
              snapshot.operator_log with hlog | ⟨pp, hlog⟩ <;>
          subst hsr <;>
          simp [combineVerdicts, hlog] at hcontra
    | unchanged =>
      rw [hin] at h
      cases h
      simp at hcontra
    | connectionRefused =>
      rw [hin] at h
      cases h
      simp at hcontra
    | invalidInput p =>
      rw [hin] at h
      cases h
      simp at hcontra
    | error t m dd mdd =>
      rcases check_input_cases collab snapshot
          (get_deltas collab snapshot prev_snapshot.input prev_snapshot.system_state).1 with
        h1 | h1 | ⟨p1, h1⟩ | h1 <;> rw [hin] at h1 <;> cases h1

/-- C9 (witness): applied at a concrete run. -/
theorem c9_witness :
    (⟨.invalidInput none, [], [], []⟩ : CheckOutcome).result ≠
      .error .SYSTEM_HEALTH "unhealthy" none none :=
  c9_no_health_error plainCtx baseCollab emptyStateSnap emptyPrev [] 0
    ⟨.invalidInput none, [], [], []⟩ rfl "unhealthy" none none

/-! ### C10 -/

/-- C10: when the current snapshot's system state is the empty mapping,
`check` returns `InvalidInput(None)` immediately: the dependency index and
the previous system state are untouched and no delta-log file is written —
no delta is computed and no oracle invoked. -/
theorem c10_empty_state (ctx : CheckerContext) (collab : Collaborators)
    (prev_snapshot : Snapshot) (fcm : FieldCondMap) (generation : Nat) (snapshot : Snapshot)
    (h : snapshot.system_state = []) :
    check ctx collab snapshot prev_snapshot fcm generation =
      .ok ⟨.invalidInput none, fcm, prev_snapshot.system_state, []⟩ := by
  unfold check
  rw [h]
  rfl

/-- C10 (witness). -/
theorem c10_witness :
    emptyStateSnap.system_state = [] ∧
      check plainCtx baseCollab emptyStateSnap emptyPrev [] 0 =
        .ok ⟨.invalidInput none, [], [], []⟩ :=
  ⟨rfl, c10_empty_state plainCtx baseCollab emptyPrev [] 0 emptyStateSnap rfl⟩

end Acto
